import Mathlib

/-!
Verification of `flutter_operations.py`, a one-shot deployment pipeline.

The development shallowly embeds the program:
* the pure identity resolver `extract_prefix` is embedded character by
  character, including the Python `re` semantics of the `$` anchor (which
  also matches just before a single trailing newline);
* `create_firebase_json_with_target` is embedded as a pure function to the
  JSON document it writes;
* `stage_files_for_deployment` is embedded at the data level as a map
  update with merge-copy (`shutil.copytree(..., dirs_exist_ok=True)`)
  semantics;
* `main` is embedded as a trace semantics: external commands and
  filesystem operations are oracles in a `World`, and a run produces the
  ordered list of side-effecting events it performed together with its
  outcome (the Python exception it re-raises, if any).
-/

namespace FlutterOps

/-! ## Identity resolver: `extract_prefix` (source lines 111-129) -/

/-- The character class `[0-9a-fA-F]` of the source's UUID regex. -/
def isHexChar (c : Char) : Bool :=
  c.isDigit || ('a' ≤ c && c ≤ 'f') || ('A' ≤ c && c ≤ 'F')

/-- `input_str.split('_')[0]`: the segment before the first underscore
(the whole string when it has no underscore; Python's `split` never
returns an empty list). -/
def firstSegment (s : String) : String :=
  ⟨s.data.takeWhile (fun c => c ≠ '_')⟩

/-- Consume exactly `n` hex characters, as a fixed-width group
`[0-9a-fA-F]{n}` of the source's regex does. -/
def takeHex : Nat → List Char → Option (List Char × List Char)
  | 0, cs => some ([], cs)
  | _ + 1, [] => none
  | n + 1, c :: cs =>
    if isHexChar c then
      (takeHex n cs).map fun gr => (c :: gr.1, gr.2)
    else none

/-- Consume the literal `-` of the source's regex. -/
def expectDash : List Char → Option (List Char)
  | [] => none
  | c :: cs => if c = '-' then some cs else none

/-- Python's `$` anchor (no `re.MULTILINE`): matches at the end of the
string, or just before a newline at the end of the string. -/
def endAnchor (cs : List Char) : Bool :=
  cs = [] || cs = ['\n']

/-- The source's `uuid_pattern.match(prefix)` followed by
`match.group(1) + match.group(2) + match.group(3) + match.group(4)`:
returns the concatenation of the four leading groups when the regex
`^([0-9a-fA-F]{8})-([0-9a-fA-F]{4})-([0-9a-fA-F]{4})-([0-9a-fA-F]{4})-([0-9a-fA-F]{12})$`
matches, and `none` otherwise.  All groups are fixed width, so the regex
is deterministic and needs no backtracking. -/
def matchUuidGroups (cs : List Char) : Option (List Char) :=
  (takeHex 8 cs).bind fun p1 =>
  (expectDash p1.2).bind fun r1 =>
  (takeHex 4 r1).bind fun p2 =>
  (expectDash p2.2).bind fun r2 =>
  (takeHex 4 r2).bind fun p3 =>
  (expectDash p3.2).bind fun r3 =>
  (takeHex 4 r3).bind fun p4 =>
  (expectDash p4.2).bind fun r4 =>
  (takeHex 12 r4).bind fun p5 =>
  if endAnchor p5.2 then some (p1.1 ++ p2.1 ++ p3.1 ++ p4.1)
  else none

/-- `extract_prefix` (source lines 111-129): split at the underscore,
take the leading segment; if the UUID regex matches it, return the
concatenation of the first four groups, else return the segment. -/
def extract_prefix (input_str : String) : String :=
  let pfx := firstSegment input_str
  match matchUuidGroups pfx.data with
  | some groups => ⟨groups⟩
  | none => pfx

/-! ## Stager, data level: `stage_files_for_deployment` (source lines 339-359)

A `Dir` is a build output or a staged subdirectory, as a map from
relative file paths to file contents; a `StagingTree` maps each
repository name to its staged subdirectory under
`deploy_staging/<site_id>` (or `none` when the subdirectory does not
exist).  `shutil.copytree(src, dst, dirs_exist_ok=True)` overwrites the
files present in `src` and keeps the files of `dst` that `src` lacks. -/

def Dir : Type := String → Option String

def StagingTree : Type := String → Option Dir

/-- `shutil.copytree(src, dst, dirs_exist_ok=True)`: the resulting
directory takes each file from `src` when present there, else from the
pre-existing `dst` (if any). -/
def mergeCopy (dst : Option Dir) (src : Dir) : Dir :=
  fun f =>
    match src f with
    | some content => some content
    | none =>
      match dst with
      | some d => d f
      | none => none

/-- `stage_files_for_deployment`: `os.makedirs(app_staging_path,
exist_ok=True)` followed by the merge copy of the repository's build
output into its own subdirectory; no other subdirectory is touched
(the staging root is prepared once in `main`, lines 61-65, and is not
recreated here). -/
def stage_files_for_deployment (tree : StagingTree) (azure_repo_name : String)
    (buildOutput : Dir) : StagingTree :=
  fun n =>
    if n = azure_repo_name then some (mergeCopy (tree n) buildOutput)
    else tree n

/-! ## Hosting config emitter: `create_firebase_json_with_target`
(source lines 186-213), embedded as the JSON document it writes. -/

structure RewriteRule where
  source : String
  destination : String
  deriving DecidableEq, Repr

structure HostingBlock where
  target : String
  publicDir : String
  ignore : List String
  rewrites : List RewriteRule
  deriving DecidableEq, Repr

structure FirebaseJson where
  hosting : List HostingBlock
  deriving DecidableEq, Repr

/-- The route rule the source appends for one repository name:
`{"source": f"/{repo_name}{{,/**}}", "destination": f"/{repo_name}/index.html"}`. -/
def rewriteFor (repo_name : String) : RewriteRule :=
  ⟨"/" ++ repo_name ++ "\x7b,/**\x7d", "/" ++ repo_name ++ "/index.html"⟩

/-- `create_firebase_json_with_target` builds `rewrites` by appending one
rule per repository, in loop order, then wraps them in a single hosting
block whose target is `target_name` and whose public root is
`f"deploy_staging/{target_name}"`. -/
def create_firebase_json_with_target (target_name : String)
    (azure_repo_names : List String) : FirebaseJson :=
  let publicDir := "deploy_staging/" ++ target_name
  let rewrites := azure_repo_names.foldl
    (fun acc repo_name => acc ++ [rewriteFor repo_name]) []
  ⟨[⟨target_name, publicDir, ["firebase.json", "**/.*", "**/node_modules/**"], rewrites⟩]⟩

/-! ## Python exception values

A raised exception is modelled by its dynamic class and its message;
for `subprocess.CalledProcessError` the message records which external
command failed.  (Captured stdout/stderr payloads are elided.) -/

inductive PyErr where
  | valueError (msg : String)
  | jsonDecodeError
  | fileNotFound (msg : String)
  | calledProcess (cmd : String)
  | osError (msg : String)
  | gcsError (msg : String)
  deriving DecidableEq, Repr

/-! ## Side-effecting events of one run

Each constructor is one externally visible side effect of `main`:
a subprocess invocation, a file created or removed, an environment
binding, or the blob-store upload.  A subprocess invocation is recorded
when the command is launched (even if it then exits non-zero); a file
write is recorded when it succeeds.  Pure diagnostics (the `ls`
listings of `build_flutter_app` and all `log_message` calls, which only
append to the in-memory buffer) are not modelled, with one exception:
`logCleanupError` records the error report emitted when workspace
removal itself fails, which claim C4 is about. -/

inductive Event where
  | makeWorkspace
  | saClone
  | saCopyKey
  | saSetEnvCred
  | saRemoveRepoDir
  | gcloudActivate
  | gcloudSetProject
  | writeFirebaseRc
  | writeFirebaseJson
  | prepareStagingRoot
  | clone (repo : String)
  | pubGet (repo : String)
  | buildWeb (repo : String)
  | makeAppStagingDir (repo : String)
  | stageCopy (repo : String)
  | siteCreate
  | targetApply
  | deploy
  | writeRunLog
  | copyArtifactLog
  | gcsUpload
  | removeWorkspace
  | logCleanupError
  deriving DecidableEq, Repr

/-- Position of an event in the pipeline; every step only emits events
of its own position, which is what makes the ordering claims provable
once and for all. -/
def eventStage : Event → Nat
  | .makeWorkspace => 0
  | .saClone => 1
  | .saCopyKey => 1
  | .saSetEnvCred => 1
  | .saRemoveRepoDir => 1
  | .gcloudActivate => 2
  | .gcloudSetProject => 3
  | .writeFirebaseRc => 4
  | .writeFirebaseJson => 5
  | .prepareStagingRoot => 6
  | .clone _ => 7
  | .pubGet _ => 8
  | .buildWeb _ => 8
  | .makeAppStagingDir _ => 9
  | .stageCopy _ => 9
  | .siteCreate => 10
  | .targetApply => 11
  | .deploy => 12
  | .writeRunLog => 13
  | .copyArtifactLog => 14
  | .gcsUpload => 15
  | .removeWorkspace => 16
  | .logCleanupError => 17

/-! ## Environment-provided configuration (source lines 37-44)

`os.getenv` yields `none` for an unset variable and `some ""` for a
variable set to the empty string; Python truthiness makes both fail the
`all([...])` check.  `AZURE_REPO_NAMES` goes through `json.loads` with
default `"[]"`: it can be absent, malformed JSON (raising
`json.JSONDecodeError` at line 39, before the check), a JSON array of
strings, or some other JSON value (failing `isinstance(..., list)`). -/

inductive ReposEnv where
  | absent
  | invalidJson
  | arr (xs : List String)
  | notArr
  deriving DecidableEq

structure Env where
  requestId : Option String
  azureProjectName : Option String
  azureRepoNames : ReposEnv
  azurePat : Option String
  gcsBucketName : Option String

/-- Python truthiness of `os.getenv(...)`: unset and empty are falsy. -/
def pyTruthy : Option String → Bool
  | none => false
  | some s => !(s == "")

/-- The value of `azure_repo_names and isinstance(azure_repo_names, list)
and len(azure_repo_names) > 0` as a boolean: an absent variable loads as
`[]` (falsy), a non-list fails `isinstance`, a list must be non-empty. -/
def reposCheck : ReposEnv → Bool
  | .arr xs => !xs.isEmpty
  | _ => false

/-- The list the run iterates over once the check has passed. -/
def reposOf : ReposEnv → List String
  | .arr xs => xs
  | _ => []

/-- The source's line 44 error message. -/
def requiredMsg : String :=
  "AZURE_PROJECT_NAME, AZURE_REPO_NAMES (as JSON array), AZURE_PAT are required for mobilePreviewDeploy"

/-! ## The oracle world

One field per external outcome `main` can observe: whether each external
command exits zero, whether each probed file exists, whether each
fallible filesystem/network operation succeeds.  Per-repository
outcomes are functions of the repository name.  `siteCreateOk` is the
exit status of `firebase hosting:sites:create`; the source runs it with
`check=False` and uses the status only to pick a log sentence (lines
232-235), so no step below reads this field — which is exactly claim C2.
Operations the source cannot observe failing are not given fields:
`shutil.rmtree(..., ignore_errors=True)` never raises, and `os.chdir("/")`
and the `os.makedirs` of staging subdirectories are assumed to succeed. -/

structure World where
  env : Env
  /-- `str(uuid.uuid4())` used when `REQUEST_ID` is unset (line 37). -/
  freshUuid : String
  /-- `str(uuid.uuid4())` naming the workspace directory (line 49). -/
  workUuid : String
  /-- `os.makedirs(work_dir, exist_ok=True)` (line 52). -/
  makedirsWorkOk : Bool
  /-- `git clone` of the service-account repository (line 143). -/
  saCloneOk : Bool
  /-- the key file exists in the cloned secrets repository (line 150). -/
  saKeyFound : Bool
  /-- `gcloud auth activate-service-account` (line 166). -/
  gcloudAuthOk : Bool
  /-- `gcloud config set project` (line 168). -/
  gcloudSetProjectOk : Bool
  /-- writing `.firebaserc` (line 178). -/
  rcWriteOk : Bool
  /-- writing `firebase.json` (line 207). -/
  fbJsonWriteOk : Bool
  /-- `os.makedirs(public_staging_dir, exist_ok=True)` (line 65). -/
  prepStagingOk : Bool
  /-- `git clone` of a project repository (line 285). -/
  cloneOk : String → Bool
  /-- `pubspec.yaml` exists in the fetched repository (line 310). -/
  pubspecExists : String → Bool
  /-- `web/index.html` exists in the fetched repository (line 312). -/
  webIndexExists : String → Bool
  /-- the `flutter` binary is on the PATH (lines 329-331). -/
  flutterFound : Bool
  /-- `flutter pub get` exits zero (line 318). -/
  pubGetOk : String → Bool
  /-- `flutter build web` exits zero (line 325). -/
  buildCmdOk : String → Bool
  /-- `build/web` exists when staging runs (line 349). -/
  buildOutputExists : String → Bool
  /-- `shutil.copytree` into the staging subdirectory (line 353). -/
  stageCopyOk : String → Bool
  /-- the `firebase` binary is on the PATH (lines 236-238 etc.). -/
  firebaseFound : Bool
  /-- exit status of `firebase hosting:sites:create`; deliberately unread. -/
  siteCreateOk : Bool
  /-- `firebase target:apply` exits zero (line 255). -/
  targetApplyOk : Bool
  /-- `firebase deploy` exits zero (line 373). -/
  deployOk : Bool
  /-- writing the flushed run log file (lines 85-86). -/
  logWriteOk : Bool
  /-- `shutil.copy` to the fixed artifact-log path (line 108). -/
  artifactCopyOk : Bool
  /-- the blob-store upload succeeds (line 397). -/
  gcsOk : Bool
  /-- `shutil.rmtree(work_dir, ignore_errors=False)` succeeds (line 100). -/
  cleanupOk : Bool

/-- `os.path.join` for two components (second component absolute wins). -/
def pjoin (a b : String) : String :=
  if b.startsWith "/" then b
  else if a.endsWith "/" then a ++ b
  else a ++ "/" ++ b

/-- `work_dir = os.path.join(WORK_BASE_DIR, unique_id)` (line 50). -/
def workDir (w : World) : String :=
  pjoin "/tmp/workspaces" w.workUuid

/-- `request_id = os.getenv("REQUEST_ID", str(uuid.uuid4()))` (line 37). -/
def mainRequestId (w : World) : String :=
  w.env.requestId.getD w.freshUuid

/-- `site_id = extract_prefix(request_id)` (line 46); also the hosting
target name — `apply_firebase_target` is called with the same value for
both (line 81). -/
def mainSiteId (w : World) : String :=
  extract_prefix (mainRequestId w)

/-- The `firebase.json` document `main` emits (line 59): target name and
site identifier are the same string. -/
def mainFirebaseJson (w : World) : FirebaseJson :=
  create_firebase_json_with_target (mainSiteId w) (reposOf w.env.azureRepoNames)

/-! ## One step of the pipeline: the events it performs, and the
exception it raises (or `none`).  Steps are listed in `main`'s call
order; a raising step stops the run (every callee re-raises after
logging, and `main` catches only once at the top). -/

abbrev Step := List Event × Option PyErr

/-- `setup_service_account` (lines 131-161): clone the secrets repo,
check the key file, copy it into the workspace, export
`GOOGLE_APPLICATION_CREDENTIALS`, remove the clone. -/
def saStep (w : World) : Step :=
  if w.saCloneOk then
    if w.saKeyFound then
      ([.saClone, .saCopyKey, .saSetEnvCred, .saRemoveRepoDir], none)
    else
      ([.saClone], some (.fileNotFound
        ("preview-stack-service-account.json not found in the service account repo at "
          ++ pjoin (workDir w) "service-account-repo")))
  else
    ([.saClone], some (.calledProcess "git clone"))

/-- First half of `activate_gcloud_auth` (line 166). -/
def gcloudAuthStep (w : World) : Step :=
  if w.gcloudAuthOk then ([.gcloudActivate], none)
  else ([.gcloudActivate], some (.calledProcess "gcloud auth activate-service-account"))

/-- Second half of `activate_gcloud_auth` (line 168). -/
def gcloudSetProjectStep (w : World) : Step :=
  if w.gcloudSetProjectOk then ([.gcloudSetProject], none)
  else ([.gcloudSetProject], some (.calledProcess "gcloud config set project"))

/-- `create_firebase_rc_file` (lines 174-184). -/
def rcStep (w : World) : Step :=
  if w.rcWriteOk then ([.writeFirebaseRc], none)
  else ([], some (.osError "error creating .firebaserc"))

/-- `create_firebase_json_with_target`'s file write (lines 205-213). -/
def fbJsonStep (w : World) : Step :=
  if w.fbJsonWriteOk then ([.writeFirebaseJson], none)
  else ([], some (.osError "error creating firebase.json"))

/-- Staging-root preparation in `main` (lines 61-65): `rmtree` with
`ignore_errors=True` then `makedirs(exist_ok=True)`. -/
def prepStagingStep (w : World) : Step :=
  if w.prepStagingOk then ([.prepareStagingRoot], none)
  else ([], some (.osError "makedirs deploy_staging"))

/-- `clone_project_repo` for one repository (lines 274-290). -/
def cloneStep (w : World) (repo : String) : Step :=
  ([.clone repo], if w.cloneOk repo then none else some (.calledProcess "git clone"))

/-- The error message of line 311. -/
def pubspecMissingErr (projectPath : String) : PyErr :=
  .fileNotFound ("pubspec.yaml not found in assumed project path " ++ projectPath)

/-- The error message of line 314. -/
def webIndexMissingErr (projectPath : String) : PyErr :=
  .fileNotFound ("web/index.html not found in the cloned project at "
    ++ projectPath ++ ". Cannot build.")

/-- One iteration of `build_flutter_app` (lines 292-337): precondition
checks on `pubspec.yaml` and `web/index.html`, then `flutter pub get`,
then `flutter build web`.  A missing `flutter` binary raises
`FileNotFoundError` from `subprocess.run` before any flutter command
runs; the `ls` diagnostics (lines 301-306) are not modelled. -/
def buildStep (w : World) (repo : String) : Step :=
  let projectPath := pjoin (workDir w) repo
  if !(w.pubspecExists repo) then
    ([], some (pubspecMissingErr projectPath))
  else if !(w.webIndexExists repo) then
    ([], some (webIndexMissingErr projectPath))
  else if !w.flutterFound then
    ([], some (.fileNotFound "flutter"))
  else if !(w.pubGetOk repo) then
    ([.pubGet repo], some (.calledProcess "flutter pub get"))
  else if !(w.buildCmdOk repo) then
    ([.pubGet repo, .buildWeb repo], some (.calledProcess "flutter build web"))
  else
    ([.pubGet repo, .buildWeb repo], none)

/-- The error of line 350, raised when `build/web` is absent. -/
def stageMissingOutputErr (buildOutputPath : String) : PyErr :=
  .fileNotFound ("Build output not found at " ++ buildOutputPath
    ++ ". Check if flutter build completed successfully.")

/-- `build_output_path = os.path.join(project_repo_path, "build", "web")`
(line 343). -/
def buildOutputPath (w : World) (repo : String) : String :=
  pjoin (pjoin (pjoin (workDir w) repo) "build") "web"

/-- One call of `stage_files_for_deployment` (lines 339-359), at the
event level: `makedirs` of the per-repository subdirectory (line 346),
the existence check on `build/web` (line 349), then the merge copy
(line 353, recorded when launched since a failing copy may be partial). -/
def stageStep (w : World) (repo : String) : Step :=
  if !(w.buildOutputExists repo) then
    ([.makeAppStagingDir repo], some (stageMissingOutputErr (buildOutputPath w repo)))
  else if w.stageCopyOk repo then
    ([.makeAppStagingDir repo, .stageCopy repo], none)
  else
    ([.makeAppStagingDir repo, .stageCopy repo], some (.osError "error staging files"))

/-- `ensure_firebase_site_exists_create_only` (lines 215-241): the env
var check passes because `setup_service_account` ran earlier; the create
command runs with `check=False` and its exit status is only logged
(lines 232-235), so the step raises only when the `firebase` binary is
missing and `w.siteCreateOk` is never consulted. -/
def ensureSiteStep (w : World) : Step :=
  if !w.firebaseFound then ([], some (.fileNotFound "firebase"))
  else ([.siteCreate], none)

/-- `apply_firebase_target` (lines 243-272): `check=True`, so a non-zero
exit raises `CalledProcessError`, which is logged and re-raised. -/
def applyTargetStep (w : World) : Step :=
  if !w.firebaseFound then ([], some (.fileNotFound "firebase"))
  else if w.targetApplyOk then ([.targetApply], none)
  else ([.targetApply], some (.calledProcess "firebase target:apply"))

/-- `deploy_with_firebase_cli` (lines 361-390): `check=True`. -/
def deployStep (w : World) : Step :=
  if !w.firebaseFound then ([], some (.fileNotFound "firebase"))
  else if w.deployOk then ([.deploy], none)
  else ([.deploy], some (.calledProcess "firebase deploy"))

/-- Flushing the run log to a workspace file (lines 84-86). -/
def writeLogStep (w : World) : Step :=
  if w.logWriteOk then ([.writeRunLog], none)
  else ([], some (.osError "write run log"))

/-- `create_artifact_log_file` (lines 105-109): copy to the fixed path
outside the workspace. -/
def artifactStep (w : World) : Step :=
  if w.artifactCopyOk then ([.copyArtifactLog], none)
  else ([], some (.osError "copy artifact log"))

/-- `upload_to_gcs` (lines 392-401): any exception inside the `try` —
including the one triggered by a `None` bucket name, which `main` never
validated — is logged and re-raised. -/
def uploadStep (w : World) : Step :=
  match w.env.gcsBucketName with
  | none => ([.gcsUpload], some (.gcsError "upload failed"))
  | some _ =>
    if w.gcsOk then ([.gcsUpload], none)
    else ([.gcsUpload], some (.gcsError "upload failed"))

/-! ## Sequencing -/

/-- Run steps in order: a step's events are performed, then its
exception (if any) aborts the rest — every callee re-raises. -/
def runSteps : List Step → Step
  | [] => ([], none)
  | s :: rest =>
    match s.2 with
    | some e => (s.1, some e)
    | none =>
      let r := runSteps rest
      (s.1 ++ r.1, r.2)

/-- The steps before site provisioning: credentials, gcloud, the two
config files, the staging root, then per repository the clone loop
(lines 69-72), the build loop (line 73 / lines 293-337), and the stage
loop (lines 76-77). -/
def preSiteSteps (w : World) (repos : List String) : List Step :=
  [saStep w, gcloudAuthStep w, gcloudSetProjectStep w, rcStep w,
    fbJsonStep w, prepStagingStep w]
  ++ repos.map (cloneStep w) ++ repos.map (buildStep w)
  ++ repos.map (stageStep w)

/-- Site provisioning and publication (lines 80-89). -/
def postSiteSteps (w : World) : List Step :=
  [ensureSiteStep w, applyTargetStep w, deployStep w, writeLogStep w,
    artifactStep w, uploadStep w]

/-- The whole body of `main`'s `try` block after the workspace exists. -/
def mainSteps (w : World) (repos : List String) : List Step :=
  preSiteSteps w repos ++ postSiteSteps w

/-- Result of one invocation of `main`: the ordered side effects, the
exception the process re-raises (`none` on success), and whether the
workspace directory still exists afterwards. -/
structure RunResult where
  trace : List Event
  outcome : Option PyErr
  workspaceLeft : Bool
  deriving DecidableEq, Repr

/-- `main` (lines 29-103).  Reading the environment has no side effect;
a malformed `AZURE_REPO_NAMES` raises at `json.loads` (line 39) and the
line 43 check raises `ValueError` — both before the workspace exists, so
the `finally` block (lines 96-103) finds `work_dir` unset or absent and
removes nothing.  Once the workspace exists, the `finally` block always
attempts `os.chdir("/")` and `shutil.rmtree`; a removal failure is
caught, reported (`logCleanupError`) and swallowed, leaving the
exception flow — hence the outcome — untouched. -/
def runMain (w : World) : RunResult :=
  match w.env.azureRepoNames with
  | .invalidJson => ⟨[], some .jsonDecodeError, false⟩
  | re =>
    if pyTruthy w.env.azureProjectName && pyTruthy w.env.azurePat && reposCheck re then
      if w.makedirsWorkOk then
        let body := runSteps (mainSteps w (reposOf re))
        if w.cleanupOk then
          ⟨.makeWorkspace :: body.1 ++ [.removeWorkspace], body.2, false⟩
        else
          ⟨.makeWorkspace :: body.1 ++ [.removeWorkspace, .logCleanupError], body.2, true⟩
      else
        ⟨[], some (.osError "makedirs workspace"), false⟩
    else
      ⟨[], some (.valueError requiredMsg), false⟩

/-- The `finally` block's events once the workspace exists: the removal
attempt, followed by the error report when removal fails. -/
def cleanupSfx (w : World) : List Event :=
  if w.cleanupOk then [.removeWorkspace] else [.removeWorkspace, .logCleanupError]

/-- The canonical 8-4-4-4-12 hyphenated hexadecimal UUID shape, stated
from the spec's words as a decomposition into hex groups. -/
def uuidShape (cs : List Char) : Prop :=
  ∃ g1 g2 g3 g4 g5 : List Char,
    g1.length = 8 ∧ g2.length = 4 ∧ g3.length = 4 ∧ g4.length = 4 ∧
    g5.length = 12 ∧
    (∀ c ∈ g1 ++ g2 ++ g3 ++ g4 ++ g5, isHexChar c = true) ∧
    cs = g1 ++ '-' :: (g2 ++ '-' :: (g3 ++ '-' :: (g4 ++ '-' :: g5)))

/-- What the code's matcher actually accepts: the canonical shape,
possibly followed by one trailing newline (Python's `$`). -/
def uuidShapeNL (cs : List Char) : Prop :=
  uuidShape cs ∨ ∃ cs₀, cs = cs₀ ++ ['\n'] ∧ uuidShape cs₀

/-- A run in which every input is present, every external command exits
zero and every filesystem operation succeeds. -/
def allOkWorld : World where
  env := ⟨some "r1_preview", some "proj", .arr ["app1", "app2"], some "tok",
    some "bucket"⟩
  freshUuid := "u"
  workUuid := "v"
  makedirsWorkOk := true
  saCloneOk := true
  saKeyFound := true
  gcloudAuthOk := true
  gcloudSetProjectOk := true
  rcWriteOk := true
  fbJsonWriteOk := true
  prepStagingOk := true
  cloneOk := fun _ => true
  pubspecExists := fun _ => true
  webIndexExists := fun _ => true
  flutterFound := true
  pubGetOk := fun _ => true
  buildCmdOk := fun _ => true
  buildOutputExists := fun _ => true
  stageCopyOk := fun _ => true
  firebaseFound := true
  siteCreateOk := true
  targetApplyOk := true
  deployOk := true
  logWriteOk := true
  artifactCopyOk := true
  gcsOk := true
  cleanupOk := true

def applyFailWorld : World := { allOkWorld with targetApplyOk := false }

def cleanupFailWorld : World := { allOkWorld with cleanupOk := false }

def gcsFailWorld : World := { allOkWorld with gcsOk := false }

def noOutputWorld : World :=
  { allOkWorld with buildOutputExists := fun _ => false }

/-- All inputs present except the blob-store bucket name. -/
def bucketlessWorld : World :=
  { allOkWorld with
      env := ⟨some "r1_preview", some "proj", .arr ["app1", "app2"],
        some "tok", none⟩ }

/-- All inputs present except the source-control access token. -/
def patMissingWorld : World :=
  { allOkWorld with
      env := ⟨some "r1_preview", some "proj", .arr ["app1", "app2"], none,
        some "bucket"⟩ }

/-- The repository-names variable holds malformed JSON. -/
def invalidJsonWorld : World :=
  { allOkWorld with
      env := ⟨some "r1_preview", some "proj", .invalidJson, some "tok",
        some "bucket"⟩ }

/-- `REQUEST_ID` begins with an underscore. -/
def underscoreWorld : World :=
  { allOkWorld with
      env := ⟨some "_preview", some "proj", .arr ["app1"], some "tok",
        some "bucket"⟩ }

example : extract_prefix "b3b5e3a0-1234-4abc-9def-abcdef123456_preview" =
    "b3b5e3a012344abc9def" := by decide

example : extract_prefix "hello_world" = "hello" := by decide

example : extract_prefix "no-underscore" = "no-underscore" := by decide

example :
    runMain
      { env := ⟨some "b3b5e3a0-1234-4abc-9def-abcdef123456_preview", some "proj",
          .arr ["mobile-app"], some "tok", some "bucket"⟩
        freshUuid := "u", workUuid := "v", makedirsWorkOk := true,
        saCloneOk := true, saKeyFound := true, gcloudAuthOk := true,
        gcloudSetProjectOk := true, rcWriteOk := true, fbJsonWriteOk := true,
        prepStagingOk := true, cloneOk := fun _ => true,
        pubspecExists := fun _ => true, webIndexExists := fun _ => true,
        flutterFound := true, pubGetOk := fun _ => true,
        buildCmdOk := fun _ => true, buildOutputExists := fun _ => true,
        stageCopyOk := fun _ => true, firebaseFound := true,
        siteCreateOk := true, targetApplyOk := true, deployOk := true,
        logWriteOk := true, artifactCopyOk := true, gcsOk := true,
        cleanupOk := true } =
    ⟨[.makeWorkspace, .saClone, .saCopyKey, .saSetEnvCred, .saRemoveRepoDir,
      .gcloudActivate, .gcloudSetProject, .writeFirebaseRc, .writeFirebaseJson,
      .prepareStagingRoot, .clone "mobile-app", .pubGet "mobile-app",
      .buildWeb "mobile-app", .makeAppStagingDir "mobile-app",
      .stageCopy "mobile-app", .siteCreate, .targetApply, .deploy,
      .writeRunLog, .copyArtifactLog, .gcsUpload, .removeWorkspace],
      none, false⟩ := by decide

/-! ## Sequencing lemmas -/

theorem runSteps_cons_err {s : Step} {rest : List Step} {e : PyErr}
    (h : s.2 = some e) : runSteps (s :: rest) = (s.1, some e) := by
  simp [runSteps, h]

theorem runSteps_cons_ok {s : Step} {rest : List Step} (h : s.2 = none) :
    runSteps (s :: rest) = (s.1 ++ (runSteps rest).1, (runSteps rest).2) := by
  simp [runSteps, h]

theorem runSteps_append_ok {l₁ l₂ : List Step} (h : (runSteps l₁).2 = none) :
    runSteps (l₁ ++ l₂) = ((runSteps l₁).1 ++ (runSteps l₂).1, (runSteps l₂).2) := by
  induction l₁ with
  | nil => simp [runSteps]
  | cons s rest ih =>
    cases hs : s.2 with
    | some e => rw [runSteps_cons_err hs] at h; simp at h
    | none =>
      rw [runSteps_cons_ok hs] at h
      simp only [List.cons_append, runSteps_cons_ok hs, ih h, List.append_assoc]

theorem runSteps_append_err {l₁ l₂ : List Step} {e : PyErr}
    (h : (runSteps l₁).2 = some e) : runSteps (l₁ ++ l₂) = runSteps l₁ := by
  induction l₁ with
  | nil => simp [runSteps] at h
  | cons s rest ih =>
    cases hs : s.2 with
    | some e' =>
      rw [runSteps_cons_err hs] at h ⊢
      simp only [List.cons_append, runSteps_cons_err hs]
    | none =>
      rw [runSteps_cons_ok hs] at h
      simp only [List.cons_append, runSteps_cons_ok hs, ih h]

/-- Every event of a run of steps was emitted by one of the steps. -/
theorem runSteps_trace_mem {l : List Step} {e : Event}
    (h : e ∈ (runSteps l).1) : ∃ s ∈ l, e ∈ s.1 := by
  induction l with
  | nil => simp [runSteps] at h
  | cons s rest ih =>
    cases hs : s.2 with
    | some e' =>
      rw [runSteps_cons_err hs] at h
      exact ⟨s, List.mem_cons_self .., h⟩
    | none =>
      rw [runSteps_cons_ok hs] at h
      rcases List.mem_append.1 h with h' | h'
      · exact ⟨s, List.mem_cons_self .., h'⟩
      · obtain ⟨s', hs', he⟩ := ih h'
        exact ⟨s', List.mem_cons_of_mem _ hs', he⟩

/-- A successful run of steps means every step succeeded. -/
theorem runSteps_ok_all {l : List Step} (h : (runSteps l).2 = none) :
    ∀ s ∈ l, s.2 = none := by
  induction l with
  | nil => simp
  | cons s rest ih =>
    intro s' hs'
    cases hs : s.2 with
    | some e => rw [runSteps_cons_err hs] at h; simp at h
    | none =>
      rw [runSteps_cons_ok hs] at h
      rcases List.mem_cons.1 hs' with rfl | h'
      · exact hs
      · exact ih h s' h'

/-- In a successful run of steps, every event of every step is in the
trace. -/
theorem runSteps_mem_of_ok {l : List Step} {s : Step} {e : Event}
    (h : (runSteps l).2 = none) (hs : s ∈ l) (he : e ∈ s.1) :
    e ∈ (runSteps l).1 := by
  induction l with
  | nil => simp at hs
  | cons s₀ rest ih =>
    cases hs₀ : s₀.2 with
    | some e' => rw [runSteps_cons_err hs₀] at h; simp at h
    | none =>
      rw [runSteps_cons_ok hs₀] at h ⊢
      rcases List.mem_cons.1 hs with rfl | h'
      · exact List.mem_append.2 (Or.inl he)
      · exact List.mem_append.2 (Or.inr (ih h h'))

/-- If an event that no step of `l₁` can emit shows up in the run of
`l₁ ++ l₂`, then all of `l₁` succeeded, the trace splits at the
boundary, and the event comes from `l₂`. -/
theorem runSteps_split {l₁ l₂ : List Step} {e : Event}
    (hnot : ∀ s ∈ l₁, e ∉ s.1) (hmem : e ∈ (runSteps (l₁ ++ l₂)).1) :
    (runSteps l₁).2 = none ∧
    runSteps (l₁ ++ l₂) = ((runSteps l₁).1 ++ (runSteps l₂).1, (runSteps l₂).2) ∧
    e ∈ (runSteps l₂).1 := by
  cases h1 : (runSteps l₁).2 with
  | some e' =>
    rw [runSteps_append_err h1] at hmem
    obtain ⟨s, hs, he⟩ := runSteps_trace_mem hmem
    exact absurd he (hnot s hs)
  | none =>
    have hsplit := @runSteps_append_ok l₁ l₂ h1
    refine ⟨rfl, hsplit, ?_⟩
    rw [hsplit] at hmem
    rcases List.mem_append.1 hmem with h' | h'
    · obtain ⟨s, hs, he⟩ := runSteps_trace_mem h'
      exact absurd he (hnot s hs)
    · exact h'

/-! ## Per-step facts: which events a step can emit, and what its
success implies. -/

theorem saStep_events {w : World} : ∀ e ∈ (saStep w).1, eventStage e = 1 := by
  unfold saStep; split_ifs <;> intro e he <;> simp at he <;>
    rcases he with rfl | rfl | rfl | rfl <;> rfl

theorem gcloudAuthStep_events {w : World} :
    ∀ e ∈ (gcloudAuthStep w).1, eventStage e = 2 := by
  unfold gcloudAuthStep; split_ifs <;> intro e he <;> simp at he <;> subst he <;> rfl

theorem gcloudSetProjectStep_events {w : World} :
    ∀ e ∈ (gcloudSetProjectStep w).1, eventStage e = 3 := by
  unfold gcloudSetProjectStep; split_ifs <;> intro e he <;> simp at he <;> subst he <;> rfl

theorem rcStep_events {w : World} : ∀ e ∈ (rcStep w).1, eventStage e = 4 := by
  unfold rcStep; split_ifs <;> intro e he <;> simp at he <;> subst he <;> rfl

theorem fbJsonStep_events {w : World} :
    ∀ e ∈ (fbJsonStep w).1, eventStage e = 5 := by
  unfold fbJsonStep; split_ifs <;> intro e he <;> simp at he <;> subst he <;> rfl

theorem prepStagingStep_events {w : World} :
    ∀ e ∈ (prepStagingStep w).1, eventStage e = 6 := by
  unfold prepStagingStep; split_ifs <;> intro e he <;> simp at he <;> subst he <;> rfl

theorem cloneStep_events {w : World} {r : String} :
    ∀ e ∈ (cloneStep w r).1, eventStage e = 7 := by
  intro e he; simp [cloneStep] at he; subst he; rfl

theorem buildStep_events {w : World} {r : String} :
    ∀ e ∈ (buildStep w r).1, eventStage e = 8 := by
  unfold buildStep; split_ifs <;> intro e he <;> simp at he <;>
    first
    | (subst he; rfl)
    | (rcases he with rfl | rfl <;> rfl)

theorem stageStep_events {w : World} {r : String} :
    ∀ e ∈ (stageStep w r).1, eventStage e = 9 := by
  unfold stageStep; split_ifs <;> intro e he <;> simp at he <;>
    first
    | (subst he; rfl)
    | (rcases he with rfl | rfl <;> rfl)

theorem ensureSiteStep_events {w : World} :
    ∀ e ∈ (ensureSiteStep w).1, eventStage e = 10 := by
  unfold ensureSiteStep; split_ifs <;> intro e he <;> simp at he <;> subst he <;> rfl

theorem applyTargetStep_events {w : World} :
    ∀ e ∈ (applyTargetStep w).1, eventStage e = 11 := by
  unfold applyTargetStep; split_ifs <;> intro e he <;> simp at he <;> subst he <;> rfl

theorem deployStep_events {w : World} :
    ∀ e ∈ (deployStep w).1, eventStage e = 12 := by
  unfold deployStep; split_ifs <;> intro e he <;> simp at he <;> subst he <;> rfl

theorem writeLogStep_events {w : World} :
    ∀ e ∈ (writeLogStep w).1, eventStage e = 13 := by
  unfold writeLogStep; split_ifs <;> intro e he <;> simp at he <;> subst he <;> rfl

theorem artifactStep_events {w : World} :
    ∀ e ∈ (artifactStep w).1, eventStage e = 14 := by
  unfold artifactStep; split_ifs <;> intro e he <;> simp at he <;> subst he <;> rfl

theorem uploadStep_events {w : World} :
    ∀ e ∈ (uploadStep w).1, eventStage e = 15 := by
  unfold uploadStep
  rcases w.env.gcsBucketName with _ | b <;>
    [skip; split_ifs] <;> intro e he <;> simp at he <;> subst he <;> rfl

/-- Every event the try-block body can emit sits strictly between the
workspace-creation and the cleanup events. -/
theorem mainSteps_events {w : World} {repos : List String} :
    ∀ s ∈ mainSteps w repos, ∀ e ∈ s.1, 1 ≤ eventStage e ∧ eventStage e ≤ 15 := by
  intro s hs e he
  simp only [mainSteps, preSiteSteps, postSiteSteps, List.append_assoc,
    List.mem_append, List.mem_cons, List.mem_map, List.not_mem_nil, or_false] at hs
  rcases hs with ((rfl | rfl | rfl | rfl | rfl | rfl) |
      ⟨r, _, rfl⟩ | ⟨r, _, rfl⟩ | ⟨r, _, rfl⟩ |
      (rfl | rfl | rfl | rfl | rfl | rfl))
  · rw [saStep_events e he]; omega
  · rw [gcloudAuthStep_events e he]; omega
  · rw [gcloudSetProjectStep_events e he]; omega
  · rw [rcStep_events e he]; omega
  · rw [fbJsonStep_events e he]; omega
  · rw [prepStagingStep_events e he]; omega
  · rw [cloneStep_events e he]; omega
  · rw [buildStep_events e he]; omega
  · rw [stageStep_events e he]; omega
  · rw [ensureSiteStep_events e he]; omega
  · rw [applyTargetStep_events e he]; omega
  · rw [deployStep_events e he]; omega
  · rw [writeLogStep_events e he]; omega
  · rw [artifactStep_events e he]; omega
  · rw [uploadStep_events e he]; omega

/-- Every event of the pre-provisioning phase has stage at most 9; in
particular none of them is a site-provisioning or publication effect. -/
theorem preSiteSteps_events {w : World} {repos : List String} :
    ∀ s ∈ preSiteSteps w repos, ∀ e ∈ s.1, eventStage e ≤ 9 := by
  intro s hs e he
  simp only [preSiteSteps, List.append_assoc, List.mem_append, List.mem_cons,
    List.mem_map, List.not_mem_nil, or_false] at hs
  rcases hs with ((rfl | rfl | rfl | rfl | rfl | rfl) |
      ⟨r, _, rfl⟩ | ⟨r, _, rfl⟩ | ⟨r, _, rfl⟩)
  · rw [saStep_events e he]; omega
  · rw [gcloudAuthStep_events e he]; omega
  · rw [gcloudSetProjectStep_events e he]; omega
  · rw [rcStep_events e he]; omega
  · rw [fbJsonStep_events e he]; omega
  · rw [prepStagingStep_events e he]; omega
  · rw [cloneStep_events e he]; omega
  · rw [buildStep_events e he]; omega
  · rw [stageStep_events e he]

/-- A successful clone step fetched the repository. -/
theorem cloneStep_trace {w : World} {r : String} :
    (cloneStep w r).1 = [.clone r] := rfl

/-- A successful build step ran the release build of the repository. -/
theorem buildStep_ok {w : World} {r : String} (h : (buildStep w r).2 = none) :
    Event.buildWeb r ∈ (buildStep w r).1 := by
  unfold buildStep at h ⊢; split_ifs at h ⊢ <;> simp_all

/-- A successful stage step copied the repository's output into the
staging tree. -/
theorem stageStep_ok {w : World} {r : String} (h : (stageStep w r).2 = none) :
    Event.stageCopy r ∈ (stageStep w r).1 := by
  unfold stageStep at h ⊢; split_ifs at h ⊢ <;> simp_all

/-- The site-create step succeeds exactly when the `firebase` binary is
found, whatever the create command's exit status. -/
theorem ensureSiteStep_ok {w : World} (h : (ensureSiteStep w).2 = none) :
    w.firebaseFound = true ∧ (ensureSiteStep w).1 = [.siteCreate] := by
  unfold ensureSiteStep at h ⊢; split_ifs at h ⊢ <;> simp_all

/-- With the `firebase` binary present, the target-apply command is
always launched, and it raises exactly when it exits non-zero. -/
theorem applyTargetStep_spec {w : World} (h : w.firebaseFound = true) :
    (applyTargetStep w).1 = [.targetApply] ∧
    (applyTargetStep w).2 =
      (if w.targetApplyOk then none else some (.calledProcess "firebase target:apply")) := by
  unfold applyTargetStep; split_ifs <;> simp_all

/-- A successful deploy step means `firebase deploy` exited zero. -/
theorem deployStep_ok {w : World} (h : (deployStep w).2 = none) :
    w.deployOk = true ∧ Event.deploy ∈ (deployStep w).1 := by
  unfold deployStep at h ⊢; split_ifs at h ⊢ <;> simp_all

/-- The upload step always launches the upload attempt, and fails
exactly when the bucket variable was absent or the transfer fails. -/
theorem uploadStep_spec {w : World} :
    (uploadStep w).1 = [.gcsUpload] ∧
    ((uploadStep w).2 = none ↔
      (w.env.gcsBucketName ≠ none ∧ w.gcsOk = true)) := by
  unfold uploadStep
  rcases w.env.gcsBucketName with _ | b <;> [skip; split_ifs] <;> simp_all

/-! ## The shape of a whole run -/

theorem cleanupSfx_events {w : World} :
    ∀ e ∈ cleanupSfx w, 16 ≤ eventStage e := by
  unfold cleanupSfx; split_ifs <;> intro e he <;> simp at he <;>
    first
    | (subst he; simp [eventStage])
    | (rcases he with rfl | rfl <;> simp [eventStage])

/-- A run either fails before the workspace exists (with an empty trace)
or consists of workspace creation, the try-block body, and cleanup. -/
theorem runMain_cases (w : World) :
    ((runMain w).trace = [] ∧ (runMain w).outcome ≠ none) ∨
    ((runMain w).trace =
        .makeWorkspace ::
          (runSteps (mainSteps w (reposOf w.env.azureRepoNames))).1 ++ cleanupSfx w ∧
      (runMain w).outcome =
        (runSteps (mainSteps w (reposOf w.env.azureRepoNames))).2) := by
  unfold runMain cleanupSfx
  cases h : w.env.azureRepoNames <;> simp [h] <;> split_ifs <;> simp [reposOf]

/-- Events of the try-block body of a run. -/
theorem runMain_body_events {w : World} {e : Event}
    (h : e ∈ (runSteps (mainSteps w (reposOf w.env.azureRepoNames))).1) :
    1 ≤ eventStage e ∧ eventStage e ≤ 15 := by
  obtain ⟨s, hs, he⟩ := runSteps_trace_mem h
  exact mainSteps_events s hs e he

theorem mainSteps_def (w : World) (repos : List String) :
    mainSteps w repos = preSiteSteps w repos ++ postSiteSteps w := rfl

theorem mem_preSite_clone {w : World} {repos : List String} {r : String}
    (hr : r ∈ repos) : cloneStep w r ∈ preSiteSteps w repos := by
  unfold preSiteSteps
  exact List.mem_append_left _ (List.mem_append_left _
    (List.mem_append_right _ (List.mem_map_of_mem _ hr)))

theorem mem_preSite_build {w : World} {repos : List String} {r : String}
    (hr : r ∈ repos) : buildStep w r ∈ preSiteSteps w repos := by
  unfold preSiteSteps
  exact List.mem_append_left _
    (List.mem_append_right _ (List.mem_map_of_mem _ hr))

theorem mem_preSite_stage {w : World} {repos : List String} {r : String}
    (hr : r ∈ repos) : stageStep w r ∈ preSiteSteps w repos := by
  unfold preSiteSteps
  exact List.mem_append_right _ (List.mem_map_of_mem _ hr)

/-- C1: in every run, the site-creation call (`firebase
hosting:sites:create`) and the target-binding call (`firebase
target:apply`) happen only after every repository of the input list has
been fetched (`git clone`), built (`flutter build web`) and staged
(copied into the staging tree): the trace splits into a prefix holding a
fetch, build and stage event for every repository and containing no
site-provisioning event, followed by the rest. -/
theorem c1_provisioning_only_after_staging (w : World)
    (h : Event.siteCreate ∈ (runMain w).trace ∨
      Event.targetApply ∈ (runMain w).trace) :
    ∃ pre post, (runMain w).trace = pre ++ post ∧
      Event.siteCreate ∉ pre ∧ Event.targetApply ∉ pre ∧
      ∀ r ∈ reposOf w.env.azureRepoNames,
        Event.clone r ∈ pre ∧ Event.buildWeb r ∈ pre ∧
          Event.stageCopy r ∈ pre := by
  -- the provisioning event at hand, and its pipeline stage
  obtain ⟨e0, he0stage, he0mem⟩ :
      ∃ e0, (10 ≤ eventStage e0 ∧ eventStage e0 ≤ 11) ∧
        e0 ∈ (runMain w).trace := by
    rcases h with h | h
    · exact ⟨.siteCreate, by simp [eventStage], h⟩
    · exact ⟨.targetApply, by simp [eventStage], h⟩
  rcases runMain_cases w with ⟨hempty, -⟩ | ⟨htrace, -⟩
  · rw [hempty] at he0mem; simp at he0mem
  · rw [htrace] at he0mem
    -- the event is in the body, not in workspace creation or cleanup
    have he0body :
        e0 ∈ (runSteps (mainSteps w (reposOf w.env.azureRepoNames))).1 := by
      rcases List.mem_cons.1 he0mem with rfl | h'
      · simp [eventStage] at he0stage
      · rcases List.mem_append.1 h' with h'' | h''
        · exact h''
        · have := cleanupSfx_events e0 h''
          omega
    -- split the body at the provisioning boundary
    rw [mainSteps_def] at he0body
    have hnot : ∀ s ∈ preSiteSteps w (reposOf w.env.azureRepoNames), e0 ∉ s.1 := by
      intro s hs hmem
      have := preSiteSteps_events s hs e0 hmem
      omega
    obtain ⟨hok, hsplit, -⟩ := runSteps_split hnot he0body
    set preT := (runSteps (preSiteSteps w (reposOf w.env.azureRepoNames))).1 with hpreT
    have hpre9 : ∀ e ∈ preT, eventStage e ≤ 9 := by
      intro e he
      obtain ⟨s, hs, he'⟩ := runSteps_trace_mem he
      exact preSiteSteps_events s hs e he'
    refine ⟨.makeWorkspace :: preT,
      (runSteps (postSiteSteps w)).1 ++ cleanupSfx w, ?_, ?_, ?_, ?_⟩
    · rw [htrace, mainSteps_def, hsplit]
      simp
    · intro hmem
      rcases List.mem_cons.1 hmem with h' | h'
      · exact Event.noConfusion h'
      · have := hpre9 _ h'; simp [eventStage] at this
    · intro hmem
      rcases List.mem_cons.1 hmem with h' | h'
      · exact Event.noConfusion h'
      · have := hpre9 _ h'; simp [eventStage] at this
    · intro r hr
      have hall := runSteps_ok_all hok
      have hclone : Event.clone r ∈ preT :=
        runSteps_mem_of_ok hok (mem_preSite_clone hr) (by simp [cloneStep])
      have hbuilds : buildStep w r ∈ preSiteSteps w (reposOf w.env.azureRepoNames) :=
        mem_preSite_build hr
      have hstages : stageStep w r ∈ preSiteSteps w (reposOf w.env.azureRepoNames) :=
        mem_preSite_stage hr
      have hbuild : Event.buildWeb r ∈ preT :=
        runSteps_mem_of_ok hok hbuilds (buildStep_ok (hall _ hbuilds))
      have hstage : Event.stageCopy r ∈ preT :=
        runSteps_mem_of_ok hok hstages (stageStep_ok (hall _ hstages))
      exact ⟨List.mem_cons_of_mem _ hclone, List.mem_cons_of_mem _ hbuild,
        List.mem_cons_of_mem _ hstage⟩

/-! ## Claim C2 -/

theorem postSiteSteps_def (w : World) :
    postSiteSteps w = ensureSiteStep w ::
      [applyTargetStep w, deployStep w, writeLogStep w, artifactStep w,
        uploadStep w] := rfl

/-- An event of the body whose stage is at least 10 forces the whole
pre-provisioning phase to have succeeded and locates the event in the
post phase. -/
theorem body_split_at_site {w : World} {e0 : Event}
    (hstage : 10 ≤ eventStage e0)
    (h : e0 ∈ (runSteps (mainSteps w (reposOf w.env.azureRepoNames))).1) :
    (runSteps (preSiteSteps w (reposOf w.env.azureRepoNames))).2 = none ∧
    runSteps (mainSteps w (reposOf w.env.azureRepoNames)) =
      ((runSteps (preSiteSteps w (reposOf w.env.azureRepoNames))).1 ++
        (runSteps (postSiteSteps w)).1, (runSteps (postSiteSteps w)).2) ∧
    e0 ∈ (runSteps (postSiteSteps w)).1 := by
  rw [mainSteps_def] at h
  have hnot : ∀ s ∈ preSiteSteps w (reposOf w.env.azureRepoNames), e0 ∉ s.1 := by
    intro s hs hmem
    have := preSiteSteps_events s hs e0 hmem
    omega
  exact runSteps_split hnot h

/-- C2: the site provisioner never raises on a non-zero exit of
`firebase hosting:sites:create` and never inspects it — the whole run is
unchanged whatever that command's exit status, and once the create
command has run the run always proceeds to the target-binding command;
by contrast, a non-zero exit of `firebase target:apply` is fatal: the
run's outcome is the re-raised `CalledProcessError` of that command. -/
theorem c2_site_create_tolerated_target_apply_fatal (w : World) :
    (∀ b, runMain { w with siteCreateOk := b } = runMain w) ∧
    (Event.siteCreate ∈ (runMain w).trace →
      Event.targetApply ∈ (runMain w).trace) ∧
    (Event.targetApply ∈ (runMain w).trace → w.targetApplyOk = false →
      (runMain w).outcome = some (.calledProcess "firebase target:apply")) := by
  refine ⟨?_, ?_, ?_⟩
  · intro b; cases w; rfl
  · intro h
    rcases runMain_cases w with ⟨hempty, -⟩ | ⟨htrace, -⟩
    · rw [hempty] at h; simp at h
    · rw [htrace] at h
      have hbody :
          Event.siteCreate ∈ (runSteps (mainSteps w (reposOf w.env.azureRepoNames))).1 := by
        rcases List.mem_cons.1 h with h' | h'
        · exact Event.noConfusion h'
        · rcases List.mem_append.1 h' with h'' | h''
          · exact h''
          · have := cleanupSfx_events _ h''; simp [eventStage] at this
      obtain ⟨-, hsplit, hpost⟩ :=
        body_split_at_site (by simp [eventStage]) hbody
      by_cases hf : w.firebaseFound
      · -- the apply command is always launched after the create attempt
        have happly : Event.targetApply ∈ (runSteps (postSiteSteps w)).1 := by
          rw [postSiteSteps_def,
            runSteps_cons_ok (by simp [ensureSiteStep, hf])]
          refine List.mem_append.2 (Or.inr ?_)
          cases ha : (applyTargetStep w).2 with
          | some e =>
            rw [runSteps_cons_err ha, (applyTargetStep_spec hf).1]
            simp
          | none =>
            rw [runSteps_cons_ok ha, (applyTargetStep_spec hf).1]
            simp
        rw [htrace, hsplit]
        exact List.mem_cons_of_mem _
          (List.mem_append.2 (Or.inl (List.mem_append.2 (Or.inr happly))))
      · -- without the firebase binary the create attempt cannot appear
        rw [postSiteSteps_def,
          @runSteps_cons_err _ _ (PyErr.fileNotFound "firebase")
            (by simp [ensureSiteStep, hf])] at hpost
        simp [ensureSiteStep, hf] at hpost
  · intro h hko
    rcases runMain_cases w with ⟨hempty, -⟩ | ⟨htrace, houtcome⟩
    · rw [hempty] at h; simp at h
    · rw [htrace] at h
      have hbody :
          Event.targetApply ∈ (runSteps (mainSteps w (reposOf w.env.azureRepoNames))).1 := by
        rcases List.mem_cons.1 h with h' | h'
        · exact Event.noConfusion h'
        · rcases List.mem_append.1 h' with h'' | h''
          · exact h''
          · have := cleanupSfx_events _ h''; simp [eventStage] at this
      obtain ⟨-, hsplit, hpost⟩ :=
        body_split_at_site (by simp [eventStage]) hbody
      -- the firebase binary was found, else the post phase stops with an
      -- empty trace
      by_cases hf : w.firebaseFound
      · have happly2 : (applyTargetStep w).2 =
            some (.calledProcess "firebase target:apply") := by
          rw [(applyTargetStep_spec hf).2, hko]; simp
        have hpostout : (runSteps (postSiteSteps w)).2 =
            some (.calledProcess "firebase target:apply") := by
          rw [postSiteSteps_def,
            runSteps_cons_ok (by simp [ensureSiteStep, hf]),
            runSteps_cons_err happly2]
        rw [houtcome, hsplit, hpostout]
      · rw [postSiteSteps_def,
          @runSteps_cons_err _ _ (PyErr.fileNotFound "firebase")
            (by simp [ensureSiteStep, hf])] at hpost
        simp [ensureSiteStep, hf] at hpost

/-! ## Claim C6 -/

theorem runSteps_singleton (s : Step) : runSteps [s] = (s.1, s.2) := by
  cases hs : s.2 with
  | some e => rw [runSteps_cons_err hs]
  | none => rw [runSteps_cons_ok hs]; simp [runSteps]

/-- The pipeline with the upload step split off the end. -/
theorem mainSteps_upload_split (w : World) (repos : List String) :
    mainSteps w repos =
      (preSiteSteps w repos ++
        [ensureSiteStep w, applyTargetStep w, deployStep w, writeLogStep w,
          artifactStep w]) ++ [uploadStep w] := by
  simp [mainSteps_def, postSiteSteps_def]

/-- The upload fails exactly under a missing bucket variable or a failed
transfer, with the exception `upload_to_gcs` re-raises. -/
theorem uploadStep_err {w : World}
    (h : w.gcsOk = false ∨ w.env.gcsBucketName = none) :
    (uploadStep w).2 = some (.gcsError "upload failed") := by
  unfold uploadStep
  rcases hb : w.env.gcsBucketName with _ | b
  · simp
  · rcases h with h | h
    · simp [h]
    · rw [hb] at h; exact Option.noConfusion h

theorem cleanupSfx_cases {w : World} :
    ∀ e ∈ cleanupSfx w, e = Event.removeWorkspace ∨ e = Event.logCleanupError := by
  unfold cleanupSfx; split_ifs <;> intro e he <;> simp at he <;> tauto

/-- C6: the blob-store upload is attempted only after `firebase deploy`
has succeeded — every trace containing the upload attempt splits into a
prefix containing the (successful) deploy, the upload attempt, and a
suffix containing nothing but workspace cleanup (in particular, nothing
undoes the publish); and when the upload fails, the run's outcome is the
re-raised upload exception. -/
theorem c6_upload_after_publish (w : World)
    (h : Event.gcsUpload ∈ (runMain w).trace) :
    w.deployOk = true ∧
    ∃ pre post, (runMain w).trace = pre ++ Event.gcsUpload :: post ∧
      Event.deploy ∈ pre ∧
      (∀ e ∈ post, e = Event.removeWorkspace ∨ e = Event.logCleanupError) ∧
      ((w.gcsOk = false ∨ w.env.gcsBucketName = none) →
        (runMain w).outcome = some (.gcsError "upload failed")) := by
  rcases runMain_cases w with ⟨hempty, -⟩ | ⟨htrace, houtcome⟩
  · rw [hempty] at h; simp at h
  · rw [htrace] at h
    have hbody :
        Event.gcsUpload ∈ (runSteps (mainSteps w (reposOf w.env.azureRepoNames))).1 := by
      rcases List.mem_cons.1 h with h' | h'
      · exact Event.noConfusion h'
      · rcases List.mem_append.1 h' with h'' | h''
        · exact h''
        · have := cleanupSfx_events _ h''; simp [eventStage] at this
    rw [mainSteps_upload_split] at hbody
    have hnot : ∀ s ∈ preSiteSteps w (reposOf w.env.azureRepoNames) ++
        [ensureSiteStep w, applyTargetStep w, deployStep w, writeLogStep w,
          artifactStep w], Event.gcsUpload ∉ s.1 := by
      intro s hs hmem
      rcases List.mem_append.1 hs with hs' | hs'
      · have := preSiteSteps_events s hs' _ hmem
        simp [eventStage] at this
      · simp only [List.mem_cons, List.not_mem_nil, or_false] at hs'
        rcases hs' with rfl | rfl | rfl | rfl | rfl
        · have := ensureSiteStep_events _ hmem; simp [eventStage] at this
        · have := applyTargetStep_events _ hmem; simp [eventStage] at this
        · have := deployStep_events _ hmem; simp [eventStage] at this
        · have := writeLogStep_events _ hmem; simp [eventStage] at this
        · have := artifactStep_events _ hmem; simp [eventStage] at this
    obtain ⟨hok, hsplit, -⟩ := runSteps_split hnot hbody
    have hall := runSteps_ok_all hok
    have hdeps : deployStep w ∈ preSiteSteps w (reposOf w.env.azureRepoNames) ++
        [ensureSiteStep w, applyTargetStep w, deployStep w, writeLogStep w,
          artifactStep w] :=
      List.mem_append_right _ (by simp)
    obtain ⟨hdep, hdepmem⟩ := deployStep_ok (hall _ hdeps)
    refine ⟨hdep, Event.makeWorkspace ::
        (runSteps (preSiteSteps w (reposOf w.env.azureRepoNames) ++
          [ensureSiteStep w, applyTargetStep w, deployStep w, writeLogStep w,
            artifactStep w])).1,
      cleanupSfx w, ?_, ?_, cleanupSfx_cases, ?_⟩
    · rw [htrace, mainSteps_upload_split, hsplit, runSteps_singleton,
        (@uploadStep_spec w).1]
      simp
    · exact List.mem_cons_of_mem _ (runSteps_mem_of_ok hok hdeps hdepmem)
    · intro hfail
      rw [houtcome, mainSteps_upload_split, hsplit, runSteps_singleton]
      exact uploadStep_err hfail

/-! ## Claim C4 -/

theorem cleanupSfx_count {w : World} :
    (cleanupSfx w).count Event.removeWorkspace = 1 := by
  unfold cleanupSfx; split_ifs <;> decide

/-- C4, amended: once the workspace directory has been created, its
removal is attempted exactly once whatever the run's outcome; a removal
failure only adds an error report to the log and leaves the workspace
behind — the run's outcome does not depend on whether removal succeeds.
(On exit paths that fail before workspace creation, nothing is removed —
see the counterexample to the claim as stated.) -/
theorem c4_cleanup_once_not_escalated (w : World) :
    (runMain w).trace.count Event.removeWorkspace ≤ 1 ∧
    (Event.makeWorkspace ∈ (runMain w).trace →
      (runMain w).trace.count Event.removeWorkspace = 1) ∧
    (∀ b, (runMain { w with cleanupOk := b }).outcome = (runMain w).outcome) ∧
    (w.cleanupOk = false → Event.makeWorkspace ∈ (runMain w).trace →
      Event.logCleanupError ∈ (runMain w).trace ∧
        (runMain w).workspaceLeft = true) := by
  have hbody0 : (runSteps (mainSteps w (reposOf w.env.azureRepoNames))).1.count
      Event.removeWorkspace = 0 := by
    refine List.count_eq_zero.2 fun hmem => ?_
    have := runMain_body_events hmem
    simp [eventStage] at this
  refine ⟨?_, ?_, ?_, ?_⟩
  · rcases runMain_cases w with ⟨hempty, -⟩ | ⟨htrace, -⟩
    · rw [hempty]; decide
    · rw [htrace]
      simp [List.count_cons, List.count_append, hbody0, cleanupSfx_count]
  · intro hmk
    rcases runMain_cases w with ⟨hempty, -⟩ | ⟨htrace, -⟩
    · rw [hempty] at hmk; simp at hmk
    · rw [htrace]
      simp [List.count_cons, List.count_append, hbody0, cleanupSfx_count]
  · intro b
    obtain ⟨⟨rid, apn, arn, pat, bkt⟩, fu, wu, a1, a2, a3, a4, a5, a6, a7, a8,
      a9, a10, a11, a12, a13, a14, a15, a16, a17, a18, a19, a20, a21, a22,
      a23, c⟩ := w
    cases b <;> cases c <;> cases arn <;> simp only [runMain] <;>
      split_ifs <;> rfl
  · intro hcl hmk
    rcases runMain_cases w with ⟨hempty, -⟩ | ⟨htrace, -⟩
    · rw [hempty] at hmk; simp at hmk
    · constructor
      · rw [htrace]
        refine List.mem_cons_of_mem _ (List.mem_append_right _ ?_)
        simp [cleanupSfx, hcl]
      · unfold runMain at htrace ⊢
        cases h : w.env.azureRepoNames <;> rw [h] at htrace <;>
          simp [h] at htrace ⊢ <;> split_ifs at htrace ⊢ <;>
          simp_all [cleanupSfx]

/-! ## Claim C5 -/

/-- C5, amended: of the inputs the spec lists as required, only the
project name, the access token and the non-empty repository list are
validated up front — when any of those is missing (and the repository
variable parses as JSON at all) the run raises the configuration
`ValueError` before performing any side effect; a malformed repository
variable likewise raises before any side effect, as a JSON decode
error.  The bucket name is not validated here; its absence surfaces
only at the upload step, after the publish (see the counterexample). -/
theorem c5_required_inputs_checked_before_side_effects (w : World) :
    (w.env.azureRepoNames = ReposEnv.invalidJson →
      runMain w = ⟨[], some .jsonDecodeError, false⟩) ∧
    (w.env.azureRepoNames ≠ ReposEnv.invalidJson →
      (pyTruthy w.env.azureProjectName = false ∨
        pyTruthy w.env.azurePat = false ∨
        reposCheck w.env.azureRepoNames = false) →
      runMain w = ⟨[], some (.valueError requiredMsg), false⟩) := by
  constructor
  · intro h
    unfold runMain
    rw [h]
  · intro hne hmiss
    unfold runMain
    cases h : w.env.azureRepoNames with
    | invalidJson => exact absurd h hne
    | absent => rw [h] at hmiss; rcases hmiss with hm | hm | hm <;> simp [hm]
    | arr xs => rw [h] at hmiss; rcases hmiss with hm | hm | hm <;> simp [hm]
    | notArr => rw [h] at hmiss; rcases hmiss with hm | hm | hm <;> simp [hm]

/-! ## Claim C7 -/

theorem foldl_rewrites_eq_map (l : List String) :
    ∀ acc : List RewriteRule,
      l.foldl (fun acc repo_name => acc ++ [rewriteFor repo_name]) acc =
        acc ++ l.map rewriteFor := by
  induction l with
  | nil => intro acc; simp
  | cons x xs ih => intro acc; simp [List.foldl_cons, ih]

theorem rewriteFor_injective : Function.Injective rewriteFor := by
  intro a b h
  have hs : "/" ++ a ++ "\x7b,/**\x7d" = "/" ++ b ++ "\x7b,/**\x7d" := by
    injection h
  have hd := congrArg String.data hs
  simp only [String.data_append, List.append_assoc] at hd
  exact String.ext (List.append_cancel_right (List.append_cancel_left hd))

/-- C7: the emitted routing configuration holds a single hosting block
whose target name is the site identifier, whose public root is
`deploy_staging/<site_id>`, and whose route rules are exactly one per
input repository name, in input order, each rewriting
`/<name>{,/**}` to `/<name>/index.html`; duplicated names keep their
duplicated routes (the rule count for a name equals its count in the
input list).  `main` invokes the emitter with the site identifier as
target name. -/
theorem c7_routing_config (site_id : String) (azure_repo_names : List String) :
    (create_firebase_json_with_target site_id azure_repo_names).hosting =
      [⟨site_id, "deploy_staging/" ++ site_id,
        ["firebase.json", "**/.*", "**/node_modules/**"],
        azure_repo_names.map rewriteFor⟩] ∧
    (azure_repo_names.map rewriteFor).length = azure_repo_names.length ∧
    (∀ n, rewriteFor n =
      ⟨"/" ++ n ++ "\x7b,/**\x7d", "/" ++ n ++ "/index.html"⟩) ∧
    (∀ n, (azure_repo_names.map rewriteFor).count (rewriteFor n) =
      azure_repo_names.count n) ∧
    (∀ w : World, (mainFirebaseJson w).hosting =
      [⟨mainSiteId w, "deploy_staging/" ++ mainSiteId w,
        ["firebase.json", "**/.*", "**/node_modules/**"],
        (reposOf w.env.azureRepoNames).map rewriteFor⟩]) := by
  refine ⟨?_, List.length_map .., fun _ => rfl, ?_, ?_⟩
  · unfold create_firebase_json_with_target
    rw [foldl_rewrites_eq_map]
    simp
  · intro n
    exact List.count_map_of_injective _ _ rewriteFor_injective _
  · intro w
    unfold mainFirebaseJson create_firebase_json_with_target
    rw [foldl_rewrites_eq_map]
    simp

/-! ## Claim C8 -/

/-- C8: staging is order-independent — with fixed build outputs, staging
two distinct repositories in either order produces the same staging
tree, and staging one repository leaves every other repository's staged
subdirectory untouched. -/
theorem c8_staging_order_independent (tree : StagingTree) (A B : String)
    (a b : Dir) (hAB : A ≠ B) :
    stage_files_for_deployment (stage_files_for_deployment tree A a) B b =
      stage_files_for_deployment (stage_files_for_deployment tree B b) A a ∧
    stage_files_for_deployment tree B b A = tree A := by
  constructor
  · funext n
    unfold stage_files_for_deployment
    by_cases hA : n = A
    · subst hA
      simp [hAB, Ne.symm hAB]
    · by_cases hB : n = B
      · subst hB
        simp [hA]
      · simp [hA, hB]
  · unfold stage_files_for_deployment
    simp [hAB]

/-! ## Claim C9 -/

/-- Two strings with distinct first characters differ. -/
theorem false_of_eq_head_ne {s t : String} {c d : Char} (hst : s = t)
    (hs : s.data.head? = some c) (ht : t.data.head? = some d)
    (hcd : c ≠ d) : False := by
  rw [hst, ht] at hs
  injection hs with hs'
  exact hcd hs'.symm

/-- C9: when the expected `build/web` directory is absent, staging
raises exactly the missing-build-output `FileNotFoundError` of line 350,
and that exception value differs from every fetch error (a
`CalledProcessError` of `git clone`), from both build-precondition
errors (the missing `pubspec.yaml` and missing `web/index.html`
`FileNotFoundError`s of lines 311/314, whatever project path they name),
from the missing-`flutter`-binary error, and from every build
`CalledProcessError`. -/
theorem c9_stage_error_distinct (w : World) (r p q : String) (cmd : String) :
    (w.buildOutputExists r = false →
      (stageStep w r).2 = some (stageMissingOutputErr (buildOutputPath w r)) ∧
      (stageStep w r).1 = [.makeAppStagingDir r]) ∧
    stageMissingOutputErr p ≠ PyErr.calledProcess cmd ∧
    stageMissingOutputErr p ≠ pubspecMissingErr q ∧
    stageMissingOutputErr p ≠ webIndexMissingErr q ∧
    stageMissingOutputErr p ≠ PyErr.fileNotFound "flutter" := by
  refine ⟨?_, by simp [stageMissingOutputErr], ?_, ?_, ?_⟩
  · intro h
    unfold stageStep
    simp [h]
  · intro h
    simp only [stageMissingOutputErr, pubspecMissingErr,
      PyErr.fileNotFound.injEq] at h
    exact false_of_eq_head_ne h rfl rfl (by decide)
  · intro h
    simp only [stageMissingOutputErr, webIndexMissingErr,
      PyErr.fileNotFound.injEq] at h
    exact false_of_eq_head_ne h rfl rfl (by decide)
  · intro h
    simp only [stageMissingOutputErr, PyErr.fileNotFound.injEq] at h
    exact false_of_eq_head_ne h rfl rfl (by decide)

/-! ## Claim C3: correctness of the matcher against the canonical shape -/

theorem uuidShape_length {cs : List Char} (h : uuidShape cs) :
    cs.length = 36 := by
  obtain ⟨g1, g2, g3, g4, g5, h1, h2, h3, h4, h5, -, rfl⟩ := h
  simp [List.length_append, h1, h2, h3, h4, h5]

theorem takeHex_sound :
    ∀ (n : Nat) (cs g r : List Char), takeHex n cs = some (g, r) →
      cs = g ++ r ∧ g.length = n ∧ ∀ c ∈ g, isHexChar c = true := by
  intro n
  induction n with
  | zero =>
    intro cs g r h
    simp [takeHex] at h
    obtain ⟨rfl, rfl⟩ := h
    simp
  | succ m ih =>
    intro cs g r h
    cases cs with
    | nil => simp [takeHex] at h
    | cons c cs' =>
      unfold takeHex at h
      by_cases hc : isHexChar c
      · rw [if_pos hc] at h
        cases hrec : takeHex m cs' with
        | none => rw [hrec] at h; exact Option.noConfusion h
        | some gr =>
          rw [hrec, Option.map_some'] at h
          injection h with h2
          have hg : c :: gr.1 = g := congrArg Prod.fst h2
          have hr : gr.2 = r := congrArg Prod.snd h2
          subst hg
          subst hr
          obtain ⟨hcs, hlen, hhex⟩ := ih cs' gr.1 gr.2 (by rw [hrec])
          refine ⟨by rw [hcs]; rfl, by simp [hlen], ?_⟩
          intro x hx
          rcases List.mem_cons.1 hx with rfl | hx'
          · exact hc
          · exact hhex x hx'
      · rw [if_neg hc] at h
        exact Option.noConfusion h

theorem takeHex_complete :
    ∀ (g r : List Char), (∀ c ∈ g, isHexChar c = true) →
      takeHex g.length (g ++ r) = some (g, r) := by
  intro g
  induction g with
  | nil => intro r _; rfl
  | cons c g' ih =>
    intro r hhex
    have hc : isHexChar c = true := hhex c (List.mem_cons_self ..)
    have hrec := ih r fun x hx => hhex x (List.mem_cons_of_mem _ hx)
    show takeHex (g'.length + 1) (c :: (g' ++ r)) = some (c :: g', r)
    unfold takeHex
    rw [if_pos hc, hrec, Option.map_some']

theorem expectDash_sound {l l' : List Char} (h : expectDash l = some l') :
    l = '-' :: l' := by
  cases l with
  | nil => simp [expectDash] at h
  | cons c cs =>
    simp only [expectDash] at h
    by_cases hc : c = '-'
    · rw [if_pos hc] at h
      injection h with h'
      rw [hc, h']
    · rw [if_neg hc] at h
      exact Option.noConfusion h

/-- Soundness: when the matcher accepts, the segment has the canonical
shape up to one trailing newline, and the output is the concatenation of
the four leading groups. -/
theorem matchUuidGroups_sound {cs out : List Char}
    (h : matchUuidGroups cs = some out) :
    ∃ g1 g2 g3 g4 g5 t : List Char,
      g1.length = 8 ∧ g2.length = 4 ∧ g3.length = 4 ∧ g4.length = 4 ∧
      g5.length = 12 ∧
      (∀ c ∈ g1 ++ g2 ++ g3 ++ g4 ++ g5, isHexChar c = true) ∧
      (t = [] ∨ t = ['\n']) ∧
      cs = g1 ++ '-' :: (g2 ++ '-' :: (g3 ++ '-' :: (g4 ++ '-' :: (g5 ++ t)))) ∧
      out = g1 ++ g2 ++ g3 ++ g4 := by
  unfold matchUuidGroups at h
  cases e1 : takeHex 8 cs with
  | none => rw [e1, Option.none_bind'] at h; exact Option.noConfusion h
  | some p1 =>
  rw [e1, Option.some_bind'] at h
  cases d1 : expectDash p1.2 with
  | none => rw [d1, Option.none_bind'] at h; exact Option.noConfusion h
  | some r1 =>
  rw [d1, Option.some_bind'] at h
  cases e2 : takeHex 4 r1 with
  | none => rw [e2, Option.none_bind'] at h; exact Option.noConfusion h
  | some p2 =>
  rw [e2, Option.some_bind'] at h
  cases d2 : expectDash p2.2 with
  | none => rw [d2, Option.none_bind'] at h; exact Option.noConfusion h
  | some r2 =>
  rw [d2, Option.some_bind'] at h
  cases e3 : takeHex 4 r2 with
  | none => rw [e3, Option.none_bind'] at h; exact Option.noConfusion h
  | some p3 =>
  rw [e3, Option.some_bind'] at h
  cases d3 : expectDash p3.2 with
  | none => rw [d3, Option.none_bind'] at h; exact Option.noConfusion h
  | some r3 =>
  rw [d3, Option.some_bind'] at h
  cases e4 : takeHex 4 r3 with
  | none => rw [e4, Option.none_bind'] at h; exact Option.noConfusion h
  | some p4 =>
  rw [e4, Option.some_bind'] at h
  cases d4 : expectDash p4.2 with
  | none => rw [d4, Option.none_bind'] at h; exact Option.noConfusion h
  | some r4 =>
  rw [d4, Option.some_bind'] at h
  cases e5 : takeHex 12 r4 with
  | none => rw [e5, Option.none_bind'] at h; exact Option.noConfusion h
  | some p5 =>
  rw [e5, Option.some_bind'] at h
  by_cases hend : endAnchor p5.2 = true
  · rw [if_pos hend] at h
    injection h with hout
    obtain ⟨hc1, hl1, hx1⟩ := takeHex_sound _ _ _ _ (e1.trans (by rfl))
    obtain ⟨hc2, hl2, hx2⟩ := takeHex_sound _ _ _ _ (e2.trans (by rfl))
    obtain ⟨hc3, hl3, hx3⟩ := takeHex_sound _ _ _ _ (e3.trans (by rfl))
    obtain ⟨hc4, hl4, hx4⟩ := takeHex_sound _ _ _ _ (e4.trans (by rfl))
    obtain ⟨hc5, hl5, hx5⟩ := takeHex_sound _ _ _ _ (e5.trans (by rfl))
    have ht : p5.2 = [] ∨ p5.2 = ['\n'] := by
      simpa [endAnchor] using hend
    refine ⟨p1.1, p2.1, p3.1, p4.1, p5.1, p5.2, hl1, hl2, hl3, hl4, hl5,
      ?_, ht, ?_, hout.symm⟩
    · intro c hc
      simp only [List.append_assoc, List.mem_append] at hc
      rcases hc with hc | hc | hc | hc | hc
      · exact hx1 c hc
      · exact hx2 c hc
      · exact hx3 c hc
      · exact hx4 c hc
      · exact hx5 c hc
    · rw [hc1, expectDash_sound d1, hc2, expectDash_sound d2,
        hc3, expectDash_sound d3, hc4, expectDash_sound d4, hc5]
  · rw [if_neg hend] at h
    exact Option.noConfusion h

/-- Completeness: the matcher accepts every canonically shaped segment
(up to one trailing newline) and returns the concatenation of the four
leading groups. -/
theorem matchUuidGroups_complete {g1 g2 g3 g4 g5 t : List Char}
    (hl1 : g1.length = 8) (hl2 : g2.length = 4) (hl3 : g3.length = 4)
    (hl4 : g4.length = 4) (hl5 : g5.length = 12)
    (hhex : ∀ c ∈ g1 ++ g2 ++ g3 ++ g4 ++ g5, isHexChar c = true)
    (ht : t = [] ∨ t = ['\n']) :
    matchUuidGroups
        (g1 ++ '-' :: (g2 ++ '-' :: (g3 ++ '-' :: (g4 ++ '-' :: (g5 ++ t))))) =
      some (g1 ++ g2 ++ g3 ++ g4) := by
  simp only [List.append_assoc, List.mem_append] at hhex
  have hx1 : ∀ c ∈ g1, isHexChar c = true := fun c hc => hhex c (by tauto)
  have hx2 : ∀ c ∈ g2, isHexChar c = true := fun c hc => hhex c (by tauto)
  have hx3 : ∀ c ∈ g3, isHexChar c = true := fun c hc => hhex c (by tauto)
  have hx4 : ∀ c ∈ g4, isHexChar c = true := fun c hc => hhex c (by tauto)
  have hx5 : ∀ c ∈ g5, isHexChar c = true := fun c hc => hhex c (by tauto)
  have e1 := takeHex_complete g1
    ('-' :: (g2 ++ '-' :: (g3 ++ '-' :: (g4 ++ '-' :: (g5 ++ t))))) hx1
  have e2 := takeHex_complete g2
    ('-' :: (g3 ++ '-' :: (g4 ++ '-' :: (g5 ++ t)))) hx2
  have e3 := takeHex_complete g3 ('-' :: (g4 ++ '-' :: (g5 ++ t))) hx3
  have e4 := takeHex_complete g4 ('-' :: (g5 ++ t)) hx4
  have e5 := takeHex_complete g5 t hx5
  rw [hl1] at e1
  rw [hl2] at e2
  rw [hl3] at e3
  rw [hl4] at e4
  rw [hl5] at e5
  rcases ht with rfl | rfl
  · simp only [List.append_nil] at e1 e2 e3 e4 e5
    simp [matchUuidGroups, e1, e2, e3, e4, e5, expectDash, endAnchor]
  · simp [matchUuidGroups, e1, e2, e3, e4, e5, expectDash, endAnchor]

/-- C3, amended: `extract_prefix` is a total function of the request
identifier; when the segment before the first underscore has the
canonical 8-4-4-4-12 hyphenated hexadecimal UUID shape — or that shape
followed by a single trailing newline, which the source's `$` anchor
also accepts — it returns the hyphen-free concatenation of the first
four groups, a hex string of exactly 20 characters; otherwise it
returns the segment unchanged. -/
theorem c3_extract_prefix_resolution (s : String) :
    (∀ g1 g2 g3 g4 g5 t : List Char,
      g1.length = 8 → g2.length = 4 → g3.length = 4 → g4.length = 4 →
      g5.length = 12 →
      (∀ c ∈ g1 ++ g2 ++ g3 ++ g4 ++ g5, isHexChar c = true) →
      (t = [] ∨ t = ['\n']) →
      (firstSegment s).data =
        g1 ++ '-' :: (g2 ++ '-' :: (g3 ++ '-' :: (g4 ++ '-' :: (g5 ++ t)))) →
      extract_prefix s = ⟨g1 ++ g2 ++ g3 ++ g4⟩ ∧
        ( extract_prefix s).length = 20 ∧
        ∀ c ∈ ( extract_prefix s).data, isHexChar c = true) ∧
    (¬ uuidShapeNL (firstSegment s).data →
      extract_prefix s = firstSegment s) := by
  constructor
  · intro g1 g2 g3 g4 g5 t hl1 hl2 hl3 hl4 hl5 hhex ht hseg
    have hm := matchUuidGroups_complete hl1 hl2 hl3 hl4 hl5 hhex ht
    rw [← hseg] at hm
    have hres : extract_prefix s = ⟨g1 ++ g2 ++ g3 ++ g4⟩ := by
      unfold extract_prefix
      simp only [hm]
    refine ⟨hres, ?_, ?_⟩
    · rw [hres]
      show (g1 ++ g2 ++ g3 ++ g4).length = 20
      simp [List.length_append, hl1, hl2, hl3, hl4]
    · rw [hres]
      intro c hc
      apply hhex
      have hc' : c ∈ g1 ++ g2 ++ g3 ++ g4 := hc
      simp only [List.append_assoc, List.mem_append] at hc' ⊢
      tauto
  · intro hns
    unfold extract_prefix
    cases hm : matchUuidGroups (firstSegment s).data with
    | none => simp only [hm]
    | some out =>
      obtain ⟨g1, g2, g3, g4, g5, t, hl1, hl2, hl3, hl4, hl5, hhex, ht, hcs, -⟩ :=
        matchUuidGroups_sound hm
      exfalso
      apply hns
      rcases ht with rfl | rfl
      · exact Or.inl ⟨g1, g2, g3, g4, g5, hl1, hl2, hl3, hl4, hl5, hhex,
          by simpa using hcs⟩
      · refine Or.inr ⟨g1 ++ '-' :: (g2 ++ '-' :: (g3 ++ '-' :: (g4 ++ '-' :: g5))), ?_, g1, g2, g3, g4, g5, hl1, hl2, hl3, hl4, hl5, hhex, rfl⟩
        rw [hcs]
        simp

theorem uuidShapeNL_length {cs : List Char} (h : uuidShapeNL cs) :
    cs.length = 36 ∨ cs.length = 37 := by
  rcases h with h | ⟨cs₀, rfl, h⟩
  · exact Or.inl (uuidShape_length h)
  · right
    simp [List.length_append, uuidShape_length h]

/-! ## Claim C10 -/

/-- C10: whenever the segment before the first underscore of the
request identifier is empty — the empty string, or any string beginning
with an underscore — `extract_prefix` returns the empty string, so the
site identifier `main` derives at line 46 (which is also the hosting
target name passed at line 81) is empty. -/
theorem c10_empty_segment_gives_empty_site_id :
    (∀ s : String, firstSegment s = "" → extract_prefix s = "") ∧
    (∀ w : World, firstSegment (mainRequestId w) = "" → mainSiteId w = "") := by
  have h1 : ∀ s : String, firstSegment s = "" → extract_prefix s = "" := by
    intro s h
    unfold extract_prefix
    simp only [h]
    decide
  exact ⟨h1, fun w hw => h1 (mainRequestId w) hw⟩

/-! ## Concrete worlds, witnesses and counterexamples -/

/-- C1 witness: a concrete successful run provisions the site, and the
trace splits as the theorem states. -/
theorem c1_witness :
    (Event.siteCreate ∈ (runMain allOkWorld).trace ∨
      Event.targetApply ∈ (runMain allOkWorld).trace) ∧
    ∃ pre post, (runMain allOkWorld).trace = pre ++ post ∧
      Event.siteCreate ∉ pre ∧ Event.targetApply ∉ pre ∧
      ∀ r ∈ reposOf allOkWorld.env.azureRepoNames,
        Event.clone r ∈ pre ∧ Event.buildWeb r ∈ pre ∧
          Event.stageCopy r ∈ pre :=
  ⟨Or.inl (by decide),
    c1_provisioning_only_after_staging allOkWorld (Or.inl (by decide))⟩

/-- C2 witness: after the create attempt the run always reaches the
binding command, and a failing binding command is fatal with the
re-raised `CalledProcessError`. -/
theorem c2_witness :
    (Event.siteCreate ∈ (runMain allOkWorld).trace ∧
      Event.targetApply ∈ (runMain allOkWorld).trace) ∧
    (Event.targetApply ∈ (runMain applyFailWorld).trace ∧
      applyFailWorld.targetApplyOk = false ∧
      (runMain applyFailWorld).outcome =
        some (.calledProcess "firebase target:apply")) :=
  ⟨⟨by decide,
    (c2_site_create_tolerated_target_apply_fatal allOkWorld).2.1 (by decide)⟩,
   ⟨by decide, by decide,
    (c2_site_create_tolerated_target_apply_fatal applyFailWorld).2.2
      (by decide) (by decide)⟩⟩

/-- C3 witness: the spec's own end-to-end request identifier resolves to
the twenty-character concatenation of the first four groups, and an
unshaped identifier is returned unchanged. -/
theorem c3_witness :
    extract_prefix "b3b5e3a0-1234-4abc-9def-abcdef123456_preview" =
      "b3b5e3a012344abc9def" ∧
    ( extract_prefix "b3b5e3a0-1234-4abc-9def-abcdef123456_preview").length
      = 20 ∧
    extract_prefix "hello_world" = firstSegment "hello_world" := by
  have h := (c3_extract_prefix_resolution
      "b3b5e3a0-1234-4abc-9def-abcdef123456_preview").1
    ['b','3','b','5','e','3','a','0'] ['1','2','3','4'] ['4','a','b','c']
    ['9','d','e','f'] ['a','b','c','d','e','f','1','2','3','4','5','6'] []
    (by decide) (by decide) (by decide) (by decide) (by decide) (by decide)
    (Or.inl rfl) (by decide)
  refine ⟨h.1.trans (by decide), h.2.1, ?_⟩
  refine (c3_extract_prefix_resolution "hello_world").2 fun hsh => ?_
  have := uuidShapeNL_length hsh
  have h5 : (firstSegment "hello_world").data.length = 5 := by decide
  omega

/-- C4 witness: a successful run removes the workspace exactly once; a
failing removal is reported and leaves the directory, without changing
the outcome. -/
theorem c4_witness :
    (runMain allOkWorld).trace.count Event.removeWorkspace = 1 ∧
    cleanupFailWorld.cleanupOk = false ∧
    Event.logCleanupError ∈ (runMain cleanupFailWorld).trace ∧
    (runMain cleanupFailWorld).workspaceLeft = true :=
  ⟨(c4_cleanup_once_not_escalated allOkWorld).2.1 (by decide), by decide,
   ((c4_cleanup_once_not_escalated cleanupFailWorld).2.2.2 (by decide)
     (by decide)).1,
   ((c4_cleanup_once_not_escalated cleanupFailWorld).2.2.2 (by decide)
     (by decide)).2⟩

/-- C4 counterexample to the claim as stated: on the exit path where the
access token is missing, the pipeline raises before the workspace
exists, and workspace removal runs zero times — not exactly once. -/
theorem c4_counterexample :
    (runMain patMissingWorld).outcome ≠ none ∧
    (runMain patMissingWorld).trace.count Event.removeWorkspace = 0 := by
  decide

/-- C5 witness: malformed JSON raises before any side effect, and a
missing access token raises the configuration error before any side
effect. -/
theorem c5_witness :
    runMain invalidJsonWorld = ⟨[], some .jsonDecodeError, false⟩ ∧
    runMain patMissingWorld = ⟨[], some (.valueError requiredMsg), false⟩ :=
  ⟨(c5_required_inputs_checked_before_side_effects invalidJsonWorld).1 rfl,
   (c5_required_inputs_checked_before_side_effects patMissingWorld).2
     (by decide) (Or.inr (Or.inl (by decide)))⟩

/-- C5 counterexample to the claim as stated: with the blob-store bucket
name absent and everything else in place, the run performs its side
effects — including the publish — and fails only afterwards at the
upload step, with no configuration error raised up front. -/
theorem c5_counterexample :
    bucketlessWorld.env.gcsBucketName = none ∧
    Event.deploy ∈ (runMain bucketlessWorld).trace ∧
    (runMain bucketlessWorld).trace ≠ [] ∧
    (runMain bucketlessWorld).outcome = some (.gcsError "upload failed") ∧
    (runMain bucketlessWorld).outcome ≠ some (.valueError requiredMsg) := by
  decide

/-- C6 witness: with a failing upload, the upload attempt still happens
only after a successful deploy, and the run fails with the upload error
while the publish stays in the trace. -/
theorem c6_witness :
    Event.gcsUpload ∈ (runMain gcsFailWorld).trace ∧
    (gcsFailWorld.deployOk = true ∧
      ∃ pre post, (runMain gcsFailWorld).trace =
          pre ++ Event.gcsUpload :: post ∧
        Event.deploy ∈ pre ∧
        (∀ e ∈ post, e = Event.removeWorkspace ∨ e = Event.logCleanupError) ∧
        ((gcsFailWorld.gcsOk = false ∨ gcsFailWorld.env.gcsBucketName = none) →
          (runMain gcsFailWorld).outcome = some (.gcsError "upload failed"))) ∧
    (runMain gcsFailWorld).outcome = some (.gcsError "upload failed") :=
  ⟨by decide, c6_upload_after_publish gcsFailWorld (by decide), by decide⟩

/-- C8 witness: two distinct names staged in either order produce the
same tree, staged from the empty tree with singleton build outputs. -/
theorem c8_witness :
    (("app1" : String) ≠ "app2") ∧
    (stage_files_for_deployment
        (stage_files_for_deployment (fun _ => none) "app1"
          (fun _ => some "one")) "app2" (fun _ => some "two") =
      stage_files_for_deployment
        (stage_files_for_deployment (fun _ => none) "app2"
          (fun _ => some "two")) "app1" (fun _ => some "one")) ∧
    stage_files_for_deployment (fun _ => none) "app2"
      (fun _ => some "two") "app1" = none :=
  ⟨by decide,
   (c8_staging_order_independent (fun _ => none) "app1" "app2"
     (fun _ => some "one") (fun _ => some "two") (by decide)).1,
   (c8_staging_order_independent (fun _ => none) "app1" "app2"
     (fun _ => some "one") (fun _ => some "two") (by decide)).2⟩

/-- C9 witness: staging with a missing `build/web` yields exactly the
missing-build-output error, and that error differs from the
build-precondition error at a concrete path. -/
theorem c9_witness :
    (noOutputWorld.buildOutputExists "app1" = false ∧
      (stageStep noOutputWorld "app1").2 =
        some (stageMissingOutputErr (buildOutputPath noOutputWorld "app1"))) ∧
    stageMissingOutputErr "/tmp/workspaces/v/app1/build/web" ≠
      pubspecMissingErr "/tmp/workspaces/v/app1" :=
  ⟨⟨by decide,
    ((c9_stage_error_distinct noOutputWorld "app1"
      "/tmp/workspaces/v/app1/build/web" "/tmp/workspaces/v/app1"
      "git clone").1 (by decide)).1⟩,
   (c9_stage_error_distinct noOutputWorld "app1"
     "/tmp/workspaces/v/app1/build/web" "/tmp/workspaces/v/app1"
     "git clone").2.2.1⟩

/-- C10 witness: a request identifier beginning with an underscore
yields the empty site identifier and target name. -/
theorem c10_witness :
    firstSegment "_preview" = "" ∧ extract_prefix "_preview" = "" ∧
    firstSegment (mainRequestId underscoreWorld) = "" ∧
    mainSiteId underscoreWorld = "" :=
  ⟨by decide, c10_empty_segment_gives_empty_site_id.1 "_preview" (by decide),
   by decide,
   c10_empty_segment_gives_empty_site_id.2 underscoreWorld (by decide)⟩

/-- C3 counterexample to the claim as stated: a request identifier whose
leading segment is a canonical UUID followed by one newline does not
have the canonical shape, yet `extract_prefix` does not return the
segment unchanged — Python's `$` anchor also matches before a trailing
newline, so the code compacts it to the twenty hex characters. -/
theorem c3_counterexample :
    ¬ uuidShape (firstSegment "00000000-0000-4000-8000-000000000000\n").data ∧
    extract_prefix "00000000-0000-4000-8000-000000000000\n" ≠
      firstSegment "00000000-0000-4000-8000-000000000000\n" ∧
    extract_prefix "00000000-0000-4000-8000-000000000000\n" =
      "00000000000040008000" := by
  refine ⟨fun h => ?_, by decide, by decide⟩
  have h36 := uuidShape_length h
  have h37 :
      (firstSegment "00000000-0000-4000-8000-000000000000\n").data.length
        = 37 := by decide
  omega

end FlutterOps
